import Mathlib

/-!
# Verification of the wiki-scripts mirror/cache/validator core

Shallow embedding of the parts of the `kusakata/wiki-scripts` repository that
the specification's claims are about:

* `WsCache` — `ws/cache/__init__.py` (`CacheDb.load`, `CacheDb.dump`, `md5sum`):
  the disk-backed cache with checksum-verified persistence.  The file system is
  modelled as the pair of the payload file and the metadata file, each holding
  raw bytes (`List Nat`).  The payload is stored gzip-compressed on disk, but
  the checksum in the source is computed over the *decompressed* byte string
  (`s = db.read()`; `md5sum(s)`), so the model works at that level.  External
  library functions (hashlib's md5, the JSON codec of `json.dumps`/`json.loads`
  together with the repository's `DatetimeEncoder`/`datetime_parser` helpers,
  which are not under `src/`) are universally quantified function parameters;
  the round-trip contract a claim needs is stated as an explicit hypothesis.

* `Grabbers` — `ws/db/grabbers/interwiki.py` (`GrabberInterwiki`): the
  incremental change-data-capture generator `gen_update` and the SQL statements
  built in `__init__` (a PostgreSQL `INSERT ... ON CONFLICT (iw_prefix) DO
  UPDATE` upsert and a keyed `DELETE`).  The executor loop lives in
  `GrabberBase`/the database engine (not under `src/`), so applying an
  `Operation` to the mirror table is modelled from the spec: an upsert is an
  insert-or-update keyed by the `iw_prefix` uniqueness key that sets all
  non-key columns to the inserted (excluded) values, a delete removes the row
  with the given key, and a constraint violation (an upsert whose row has no
  key) is fatal.

* `Grab` — `grab.py`: the validator helpers `_check_lists`, `_check_entries`,
  `_squash_list_of_dicts` and the timestamp snapping of
  `check_protected_titles`, together with a model of nested JSON-like records
  (`JValue`) and of `ws.utils.containers.dmerge` (not under `src/`, modelled
  from the spec as deep field-union).
-/

namespace WsCache

/-- In-memory `self.meta` dictionary of `CacheDb`: the checksum recorded under
the key `"md5"` and the last-update timestamp under `"timestamp"`.  A field is
`none` when the corresponding key is absent from the dictionary.  The
timestamp is kept in its parsed form; its textual round-trip lives inside the
metadata-file codec. -/
structure Meta where
  md5 : Option (List Nat)
  timestamp : Option Nat
deriving DecidableEq

/-- The two files `CacheDb` persists: `self.dbpath` (the payload, byte content
after gzip decompression) and `self.metapath` (the plaintext metadata file).
`none` means the file does not exist. -/
structure FS where
  dbfile : Option (List Nat)
  metafile : Option (List Nat)
deriving DecidableEq

/-- Outcome of `CacheDb.load`:
`ok` — data deserialized, in-memory meta updated;
`callsInit` — no payload file on disk, `load` delegates to `init(key)`;
`metaDecodeError` — `json.loads` / timestamp parsing of the metadata file raised;
`dataDecodeError` — `json.loads` of the payload raised;
`integrityError` — the recomputed checksum differs from the recorded one and
`CacheDbError` is raised. -/
inductive LoadResult (D : Type) where
  | ok (data : D) (meta : Meta)
  | callsInit
  | metaDecodeError
  | dataDecodeError
  | integrityError
deriving DecidableEq

/-- `self.meta.update(json.loads(...))`: keys present in the loaded dictionary
overwrite the in-memory ones, keys absent from it are kept. -/
def metaUpdate (m0 mfile : Meta) : Meta :=
  { md5 := mfile.md5 <|> m0.md5
    timestamp := mfile.timestamp <|> m0.timestamp }

/-- The successive points at which `CacheDb.dump` can fail, in the order the
source performs its effects: before the payload file is opened; after
`gzip.open(self.dbpath, mode="wb")` truncated the payload file; after
`db.write(s)`; after `open(self.metapath, mode="wt")` truncated the metadata
file; after both writes completed. -/
inductive DumpStep where
  | beforePayloadOpen
  | payloadOpened
  | payloadWritten
  | metaOpened
  | completed
deriving DecidableEq

section

variable {D : Type}
variable (md5sum : List Nat → List Nat)
variable (json_dumps : D → List Nat) (json_loads : List Nat → Option D)
variable (meta_dumps : Meta → List Nat) (meta_loads : List Nat → Option Meta)

/-- `CacheDb.load` (ws/cache/__init__.py).  `meta0` is the in-memory
`self.meta` before the call.  Mirrors the source: if the payload file exists,
read it and recompute its md5; if the metadata file also exists, merge its
contents into `self.meta`, compare the recorded `self.md5` with the recomputed
one and raise `CacheDbError` on mismatch, otherwise record the fresh checksum
in `self.meta["md5"]` without any comparison; only then deserialize the
payload into `self.data`.  Without a payload file, call `self.init(key)`. -/
def load (fs : FS) (meta0 : Meta) : LoadResult D :=
  match fs.dbfile with
  | none => LoadResult.callsInit
  | some s =>
    let md5_new := md5sum s
    match fs.metafile with
    | some mb =>
      match meta_loads mb with
      | none => LoadResult.metaDecodeError
      | some mfile =>
        let meta1 := metaUpdate meta0 mfile
        if meta1.md5 = some md5_new then
          match json_loads s with
          | some d => LoadResult.ok d meta1
          | none => LoadResult.dataDecodeError
        else LoadResult.integrityError
    | none =>
      match json_loads s with
      | some d => LoadResult.ok d { meta0 with md5 := some md5_new }
      | none => LoadResult.dataDecodeError

/-- File-system contents when `CacheDb.dump` is interrupted at `step`.  The
source serializes `self.data`, records `md5sum(s)` in `self.meta`, then opens
the payload file with mode `"wb"` (truncating it in place), writes `s`, opens
the metadata file with mode `"wt"` (truncating it), and writes the serialized
metadata.  Opening a file for writing destroys its previous content before the
new content is complete. -/
def dumpAt (step : DumpStep) (d : D) (meta0 : Meta) (fs : FS) : FS :=
  let s := json_dumps d
  let m : Meta := { meta0 with md5 := some (md5sum s) }
  match step with
  | DumpStep.beforePayloadOpen => fs
  | DumpStep.payloadOpened => { fs with dbfile := some [] }
  | DumpStep.payloadWritten => { fs with dbfile := some s }
  | DumpStep.metaOpened => { dbfile := some s, metafile := some [] }
  | DumpStep.completed => { dbfile := some s, metafile := some (meta_dumps m) }

/-- A completed `CacheDb.dump`: the new in-memory `self.meta` (with the fresh
checksum recorded) and the resulting file-system state. -/
def dump (d : D) (meta0 : Meta) (fs : FS) : Meta × FS :=
  ({ meta0 with md5 := some (md5sum (json_dumps d)) },
   dumpAt md5sum json_dumps meta_dumps DumpStep.completed d meta0 fs)

end

/-- Concrete payload codec used to instantiate the witnesses: the payload is a
single natural number. -/
def natDumps : Nat → List Nat := fun n => [n]

/-- Inverse of `natDumps` on its image. -/
def natLoads : List Nat → Option Nat :=
  fun l => match l with
  | [n] => some n
  | _ => none

/-- Concrete stand-in checksum for the witnesses (the claims' theorems hold
for every checksum function). -/
def sumDigest : List Nat → List Nat := fun l => [l.foldl (· + ·) 0]

/-- Concrete metadata-file codec for the witnesses. -/
def metaDumpsDemo : Meta → List Nat := fun _ => [9]

/-- Concrete metadata-file codec for the witnesses. -/
def metaLoadsDemo : List Nat → Option Meta :=
  fun _ => some { md5 := some [7], timestamp := none }

end WsCache

namespace Grabbers

/-- `params` of a MediaWiki log event as consumed by
`GrabberInterwiki._transform_logevent_params`: positional keys `"0"` to `"3"`,
each possibly absent.  Keys `"2"` and `"3"` hold integers (the source applies
`bool(int(...))`); they are modelled already parsed. -/
structure LogParams where
  p0 : Option String
  p1 : Option String
  p2 : Option Int
  p3 : Option Int
deriving DecidableEq

/-- One log event as returned by the `list=logevents` query in
`GrabberInterwiki.gen_update`: its `type`, `action` and `params` fields. -/
structure LogEvent where
  type : String
  action : String
  params : LogParams
deriving DecidableEq

/-- The `db_entry` dictionary built by `_transform_logevent_params`: each field
is present exactly when the corresponding positional parameter was.  The field
`iwPrefix` models the source's `iw_prefix` key. -/
structure IwEntry where
  iwPrefix : Option String
  iw_url : Option String
  iw_trans : Option Bool
  iw_local : Option Bool
deriving DecidableEq

/-- A row of the `interwiki` table (the non-key columns; the key is the
`iw_prefix` column the row is stored under).  `none` is SQL NULL. -/
structure IwRow where
  iw_url : Option String
  iw_api : Option String
  iw_local : Option Bool
  iw_trans : Option Bool
deriving DecidableEq

/-- The two SQL statements prepared in `GrabberInterwiki.__init__`, with their
bound parameters: the upsert `INSERT ... ON CONFLICT (iw_prefix) DO UPDATE`
carrying a `db_entry`, and the keyed `DELETE ... WHERE iw_prefix = b_iw_prefix`. -/
inductive Operation where
  | upsert (e : IwEntry)
  | delete (key : String)
deriving DecidableEq

/-- `GrabberInterwiki._transform_logevent_params`: positional parameter `"0"`
becomes `iw_prefix`, `"1"` becomes `iw_url`, `"2"` becomes `iw_trans` via
`bool(int(...))`, `"3"` becomes `iw_local` via `bool(int(...))`. -/
def _transform_logevent_params (params : LogParams) : IwEntry :=
  { iwPrefix := params.p0
    iw_url := params.p1
    iw_trans := params.p2.map (fun n => decide (n ≠ 0))
    iw_local := params.p3.map (fun n => decide (n ≠ 0)) }

/-- `GrabberInterwiki.gen_update(since)`, applied to the list of log events the
`list=logevents, dir=newer, start=since` query yields.  Events whose `type` is
not `"interwiki"` are skipped; `iw_add`/`iw_edit` yield the upsert statement
with the transformed entry; `iw_delete` yields the keyed delete, where the
source subscripts `db_entry["iw_prefix"]` — a `KeyError` terminating the
generator when parameter `"0"` was absent (modelled as `none`).  Any other
action is silently skipped. -/
def gen_update : List LogEvent → Option (List Operation)
  | [] => some []
  | le :: rest =>
    if le.type = "interwiki" then
      let db_entry := _transform_logevent_params le.params
      if le.action = "iw_add" ∨ le.action = "iw_edit" then
        (gen_update rest).map (fun ops => Operation.upsert db_entry :: ops)
      else if le.action = "iw_delete" then
        match db_entry.iwPrefix with
        | some p => (gen_update rest).map (fun ops => Operation.delete p :: ops)
        | none => none
      else gen_update rest
    else gen_update rest

/-- The mirror's `interwiki` table: a finite partial map from the `iw_prefix`
uniqueness key to the non-key columns, modelled as a function. -/
abbrev Store : Type := String → Option IwRow

/-- The row the upsert statement stores for `db_entry`: every non-key column
is set to the inserted (excluded) value, absent entry fields becoming NULL;
`iw_api` is never carried by a log event, so it is always NULL here. -/
def rowOfEntry (e : IwEntry) : IwRow :=
  { iw_url := e.iw_url
    iw_api := none
    iw_local := e.iw_local
    iw_trans := e.iw_trans }

/-- Modelled from the spec: executing one `Operation` against MirrorStore
(`GrabberBase`'s executor and the database engine are not under `src/`).  Per
the spec, an upsert is a uniqueness-constraint-aware insert-or-update on the
`iw_prefix` key, a delete removes the row with the given key, and a constraint
violation — here an upsert whose `db_entry` has no `iw_prefix`, hence no value
for the NOT NULL key column — is fatal (`none`). -/
def applyOp (s : Store) : Operation → Option Store
  | Operation.upsert e =>
    match IwEntry.iwPrefix e with
    | some p => some (fun k => if k = p then some (rowOfEntry e) else s k)
    | none => none
  | Operation.delete p => some (fun k => if k = p then none else s k)

/-- Modelled from the spec: executing a sequence of Operations in order,
stopping fatally at the first constraint violation. -/
def applyOps : List Operation → Store → Option Store
  | [], s => some s
  | op :: rest, s =>
    match applyOp s op with
    | some s1 => applyOps rest s1
    | none => none

/-- How one operation affects the row stored under key `k`:
`none` — untouched; `some r` — afterwards the table holds `r` at `k`
(`some none` meaning the row is gone). -/
def touches (op : Operation) (k : String) : Option (Option IwRow) :=
  match op with
  | Operation.upsert e =>
    match IwEntry.iwPrefix e with
    | some p => if k = p then some (some (rowOfEntry e)) else none
    | none => none
  | Operation.delete p => if k = p then some none else none

/-- The last effect a sequence of operations has on key `k`, if any. -/
def lastTouch (ops : List Operation) (k : String) : Option (Option IwRow) :=
  match ops with
  | [] => none
  | op :: rest =>
    match lastTouch rest k with
    | some v => some v
    | none => touches op k

/-- Concrete log events for the witnesses: an `iw_add` followed by an
`iw_delete` of another key. -/
def demoEvents : List LogEvent :=
  [ { type := "interwiki", action := "iw_add"
      params := { p0 := some "w", p1 := some "u", p2 := some 1, p3 := none } }
  , { type := "interwiki", action := "iw_delete"
      params := { p0 := some "x", p1 := none, p2 := none, p3 := none } } ]

/-- The operations `gen_update` derives from `demoEvents`. -/
def demoOps : List Operation :=
  [ Operation.upsert
      { iwPrefix := some "w", iw_url := some "u"
        iw_trans := some true, iw_local := none }
  , Operation.delete "x" ]

/-- An empty mirror table for the witnesses. -/
def demoStore0 : Store := fun _ => none

/-- The mirror table after applying `demoOps` to `demoStore0`. -/
def demoStore1 : Store :=
  fun k =>
    if k = "x" then none
    else if k = "w" then
      some { iw_url := some "u", iw_api := none
             iw_local := none, iw_trans := some true }
    else demoStore0 k

end Grabbers

namespace Grab

/-- A JSON-like value as handled by `grab.py`: the records returned by the
database query layer and by the MediaWiki API (nested string-keyed
dictionaries, lists and scalars).  Dictionaries are insertion-ordered
association lists without duplicate keys, like Python dicts. -/
inductive JValue where
  | null : JValue
  | bool : Bool → JValue
  | int : Int → JValue
  | str : String → JValue
  | arr : List JValue → JValue
  | obj : List (String × JValue) → JValue

/-- A record (Python dict) as used throughout `grab.py`. -/
abbrev JObj := List (String × JValue)

mutual

/-- Structural equality of `JValue`s (Python `==` on the decoded records). -/
def JValue.beq : JValue → JValue → Bool
  | JValue.null, JValue.null => true
  | JValue.bool a, JValue.bool b => a == b
  | JValue.int a, JValue.int b => a == b
  | JValue.str a, JValue.str b => a == b
  | JValue.arr xs, JValue.arr ys => JValue.beqArr xs ys
  | JValue.obj xs, JValue.obj ys => JValue.beqObj xs ys
  | _, _ => false

/-- Structural equality on lists of values. -/
def JValue.beqArr : List JValue → List JValue → Bool
  | [], [] => true
  | x :: xs, y :: ys => JValue.beq x y && JValue.beqArr xs ys
  | _, _ => false

/-- Structural equality on association lists. -/
def JValue.beqObj : List (String × JValue) → List (String × JValue) → Bool
  | [], [] => true
  | (k, v) :: xs, (k', v') :: ys => k == k' && JValue.beq v v' && JValue.beqObj xs ys
  | _, _ => false

end

end Grab

namespace Grab

mutual

/-- `JValue.beq` decides equality (infrastructure for the `DecidableEq`
instance below). -/
theorem JValue.beq_iff : ∀ a b : JValue, JValue.beq a b = true ↔ a = b
  | JValue.null, JValue.null => by simp [JValue.beq]
  | JValue.bool _, JValue.bool _ => by simp [JValue.beq]
  | JValue.int _, JValue.int _ => by simp [JValue.beq]
  | JValue.str _, JValue.str _ => by simp [JValue.beq]
  | JValue.arr xs, JValue.arr ys => by
      simp only [JValue.beq, JValue.beqArr_iff xs ys]
      constructor
      · intro h; rw [h]
      · intro h; cases h; rfl
  | JValue.obj xs, JValue.obj ys => by
      simp only [JValue.beq, JValue.beqObj_iff xs ys]
      constructor
      · intro h; rw [h]
      · intro h; cases h; rfl
  | JValue.null, JValue.bool _ | JValue.null, JValue.int _ | JValue.null, JValue.str _
  | JValue.null, JValue.arr _ | JValue.null, JValue.obj _ => by simp [JValue.beq]
  | JValue.bool _, JValue.null | JValue.bool _, JValue.int _ | JValue.bool _, JValue.str _
  | JValue.bool _, JValue.arr _ | JValue.bool _, JValue.obj _ => by simp [JValue.beq]
  | JValue.int _, JValue.null | JValue.int _, JValue.bool _ | JValue.int _, JValue.str _
  | JValue.int _, JValue.arr _ | JValue.int _, JValue.obj _ => by simp [JValue.beq]
  | JValue.str _, JValue.null | JValue.str _, JValue.bool _ | JValue.str _, JValue.int _
  | JValue.str _, JValue.arr _ | JValue.str _, JValue.obj _ => by simp [JValue.beq]
  | JValue.arr _, JValue.null | JValue.arr _, JValue.bool _ | JValue.arr _, JValue.int _
  | JValue.arr _, JValue.str _ | JValue.arr _, JValue.obj _ => by simp [JValue.beq]
  | JValue.obj _, JValue.null | JValue.obj _, JValue.bool _ | JValue.obj _, JValue.int _
  | JValue.obj _, JValue.str _ | JValue.obj _, JValue.arr _ => by simp [JValue.beq]

/-- `JValue.beqArr` decides equality. -/
theorem JValue.beqArr_iff : ∀ xs ys : List JValue, JValue.beqArr xs ys = true ↔ xs = ys
  | [], [] => by simp [JValue.beqArr]
  | x :: xs, y :: ys => by
      simp [JValue.beqArr, JValue.beq_iff x y, JValue.beqArr_iff xs ys]
  | [], _ :: _ => by simp [JValue.beqArr]
  | _ :: _, [] => by simp [JValue.beqArr]

/-- `JValue.beqObj` decides equality. -/
theorem JValue.beqObj_iff : ∀ xs ys : List (String × JValue), JValue.beqObj xs ys = true ↔ xs = ys
  | [], [] => by simp [JValue.beqObj]
  | (_, v) :: xs, (_, v') :: ys => by
      simp [JValue.beqObj, JValue.beq_iff v v', JValue.beqObj_iff xs ys]
  | [], _ :: _ => by simp [JValue.beqObj]
  | _ :: _, [] => by simp [JValue.beqObj]

end

instance instDecidableEqJValue : DecidableEq JValue :=
  fun a b => decidable_of_iff _ (JValue.beq_iff a b)

end Grab

namespace Grab

/-- Python `d[k]` lookup / `k in d` on a record: value of the first (unique)
entry with key `k`. -/
def objGet (o : JObj) (k : String) : Option JValue :=
  match o with
  | [] => none
  | (k', v) :: rest => if k' = k then some v else objGet rest k

/-- Python `d[k] = v` on a record: overwrite in place, keeping the key's
position, or append a new entry at the end. -/
def objSet (o : JObj) (k : String) (v : JValue) : JObj :=
  match o with
  | [] => [(k, v)]
  | (k', v') :: rest => if k' = k then (k', v) :: rest else (k', v') :: objSet rest k v

/-- Modelled from the spec: `ws.utils.containers.dmerge` (imported by
`grab.py` but not under `src/`), described as merging partial records "by
deep field-union".  `dmergeFields src dest` merges each field of `src` into
`dest` in order: when both the incoming value and the destination's value
under the same key are records, they are merged recursively (deep union);
otherwise the incoming value overwrites (or creates) the destination field. -/
def dmergeFields : JObj → JObj → JObj
  | [], dest => dest
  | (k, JValue.obj s) :: rest, dest =>
    (match objGet dest k with
     | some (JValue.obj o) => dmergeFields rest (objSet dest k (JValue.obj (dmergeFields s o)))
     | _ => dmergeFields rest (objSet dest k (JValue.obj s)))
  | (k, v) :: rest, dest => dmergeFields rest (objSet dest k v)

/-- Modelled from the spec: `dmerge(source, destination)` on whole values;
on records it is the deep field-union, otherwise the source value wins. -/
def dmerge (src dest : JValue) : JValue :=
  match src, dest with
  | JValue.obj s, JValue.obj d => JValue.obj (dmergeFields s d)
  | _, _ => src

/-- First (unique) entry of the `OrderedDict` keyed by identity value. -/
def alistGet (acc : List (JValue × JObj)) (kv : JValue) : Option JObj :=
  match acc with
  | [] => none
  | (k, v) :: rest => if k = kv then some v else alistGet rest kv

/-- `OrderedDict` assignment: overwrite the entry in place (keeping its
position), or append it. -/
def alistSet (acc : List (JValue × JObj)) (kv : JValue) (nv : JObj) : List (JValue × JObj) :=
  match acc with
  | [] => [(kv, nv)]
  | (k, v) :: rest => if k = kv then (k, nv) :: rest else (k, v) :: alistSet rest kv nv

/-- The loop of `_squash_list_of_dicts` (grab.py): fold the incoming records
into an `OrderedDict` keyed by `item[key]`; a record whose identity was
already seen is `dmerge`d into the stored one, otherwise it is inserted.
`item[key]` on a record without the key raises `KeyError` (`none`). -/
def squashLoop (key : String) : List JObj → List (JValue × JObj) → Option (List (JValue × JObj))
  | [], acc => some acc
  | item :: rest, acc =>
    match objGet item key with
    | none => none
    | some key_value =>
      match alistGet acc key_value with
      | none => squashLoop key rest (acc ++ [(key_value, item)])
      | some stored => squashLoop key rest (alistSet acc key_value (dmergeFields item stored))

/-- `_squash_list_of_dicts(api_list, key=...)` (grab.py): squash records
sharing the same identity value under `key` and return
`list(api_dict.values())`. -/
def _squash_list_of_dicts (api_list : List JObj) (key : String) : Option (List JObj) :=
  (squashLoop key api_list []).map (fun l => l.map Prod.snd)

/-- Identity values of the records in input order (`item[key]` for each). -/
def keysOf (key : String) (l : List JObj) : List JValue :=
  l.filterMap (fun it => objGet it key)

/-- Distinct values in first-occurrence order. -/
def firstDedup : List JValue → List JValue
  | [] => []
  | a :: l => a :: firstDedup (l.filter (fun b => b ≠ a))
termination_by l => l.length
decreasing_by
  simp only [List.length_cons]
  exact Nat.lt_succ_of_le (List.length_filter_le _ _)

/-- The records of the input carrying the identity value `kv`. -/
def itemsWith (key : String) (kv : JValue) (l : List JObj) : List JObj :=
  l.filter (fun it => objGet it key = some kv)

/-- Deep field-union of all records carrying the identity value `kv`, merged
left to right into the first of them. -/
def mergeGroup (key : String) (kv : JValue) (l : List JObj) : JObj :=
  match itemsWith key kv l with
  | [] => []
  | it :: its => its.foldl (fun stored item => dmergeFields item stored) it

/-- The specification's description of squashing: one record per distinct
identity, in first-occurrence order, each the deep field-union of its
partial records. -/
def squashSpec (key : String) (l : List JObj) : List JObj :=
  (firstDedup (keysOf key l)).map (fun kv => mergeGroup key kv l)

end Grab

namespace Grab

/-- Observable behaviour of one `_check_lists(db_list, api_list)` call
(grab.py).  `lengthAssertFailed` — the initial `assert len(db_list) ==
len(api_list)` failed (its message reports the two lengths), which jumps to
the outer `except AssertionError: traceback.print_exc()`;
`comparedIndices` — positions whose paired records were compared by
`_check_entries`; `mismatchedIndices` — positions whose comparison failed
(each printed with its structural diff and both full records, the
`AssertionError` swallowed so the loop continues); `aggregateRaised` — after
the loop, `raise AssertionError from last_assert_exc` fired because at least
one pair mismatched; `escapes` — an exception propagates out of
`_check_lists` to its caller (the outer `except` prints the traceback
instead, so this is always `false`). -/
structure CheckListsResult where
  lengthAssertFailed : Bool
  comparedIndices : List Nat
  mismatchedIndices : List Nat
  aggregateRaised : Bool
  escapes : Bool
deriving DecidableEq

/-- The `for i, entries in enumerate(zip(db_list, api_list))` loop of
`_check_lists`, collecting the positions whose pairs compare unequal
(`_check_entries` re-raises into the per-pair `except`, which records the
failure and continues). -/
def checkPairs {R : Type} [DecidableEq R] : Nat → List R → List R → List Nat
  | _, [], _ => []
  | _, _ :: _, [] => []
  | i, d :: ds, a :: as_ => (if d = a then [] else [i]) ++ checkPairs (i + 1) ds as_

/-- `_check_lists(db_list, api_list)` (grab.py). -/
def _check_lists {R : Type} [DecidableEq R] (db_list api_list : List R) : CheckListsResult :=
  if db_list.length = api_list.length then
    let mm := checkPairs 0 db_list api_list
    { lengthAssertFailed := false
      comparedIndices := List.range (db_list.zip api_list).length
      mismatchedIndices := mm
      aggregateRaised := !mm.isEmpty
      escapes := false }
  else
    { lengthAssertFailed := true
      comparedIndices := []
      mismatchedIndices := []
      aggregateRaised := false
      escapes := false }

/-- One `protectedtitles` record as compared by `check_protected_titles`
(grab.py): its optional `timestamp` (microseconds since an epoch; Python
`datetime` subtraction yields a `timedelta` compared against
`timedelta(seconds=1)`) and its remaining fields. -/
structure PtEntry where
  timestamp : Option Int
  fields : List (String × Int)
deriving DecidableEq

/-- Microseconds in `datetime.timedelta(seconds=1)`. -/
def usecPerSec : Nat := 1000000

/-- The per-pair normalization loop body of `check_protected_titles`: when
both records carry a timestamp and the absolute difference is at most one
second, the db-side timestamp is snapped to the api-side value; otherwise the
db record is left untouched. -/
def snap_pt_entry (db_entry api_entry : PtEntry) : PtEntry :=
  match db_entry.timestamp, api_entry.timestamp with
  | some d, some a =>
    if (d - a).natAbs ≤ usecPerSec then { db_entry with timestamp := some a } else db_entry
  | _, _ => db_entry

/-- The whole normalization pass of `check_protected_titles` over
`zip(db_list, api_list)`, before `_check_lists` compares the two lists. -/
def snap_protected_titles (db_list api_list : List PtEntry) : List PtEntry :=
  (db_list.zip api_list).map (fun p => snap_pt_entry p.1 p.2)

end Grab

open WsCache Grabbers Grab

/-- C10: when the persisted payload file exists but the metadata file does
not, `CacheDb.load` performs no checksum verification: it never raises
IntegrityError, accepts the payload (deserializing it is all that remains),
and records the freshly recomputed checksum of the payload as
`self.meta["md5"]`, the new trusted baseline. -/
theorem load_without_metafile_no_check {D : Type}
    (md5sum : List Nat → List Nat) (json_loads : List Nat → Option D)
    (meta_loads : List Nat → Option WsCache.Meta)
    (s : List Nat) (meta0 : WsCache.Meta) :
    WsCache.load md5sum json_loads meta_loads { dbfile := some s, metafile := none } meta0 =
      (match json_loads s with
       | some d => WsCache.LoadResult.ok d { meta0 with md5 := some (md5sum s) }
       | none => WsCache.LoadResult.dataDecodeError)
    ∧ WsCache.load md5sum json_loads meta_loads { dbfile := some s, metafile := none } meta0 ≠
        WsCache.LoadResult.integrityError := by
  constructor
  · simp [WsCache.load]
  · cases h : json_loads s <;> simp [WsCache.load, h]

/-- C4 (round-trip): `dump()` followed by `load()` on the untouched files
succeeds, never raises IntegrityError, and yields `self.data` structurally
equal to the pre-dump in-memory state, because `load` recomputes the checksum
of exactly the bytes `dump` wrote and compares it with the checksum `dump`
recorded in the metadata file.  The payload and metadata codecs are quantified
over; the two hypotheses are their round-trip contracts at the dumped values
(`json.dumps`/`json.loads` with the datetime helpers, and the plaintext JSON
metadata file). -/
theorem dump_then_load_roundtrip {D : Type}
    (md5sum : List Nat → List Nat)
    (json_dumps : D → List Nat) (json_loads : List Nat → Option D)
    (meta_dumps : WsCache.Meta → List Nat) (meta_loads : List Nat → Option WsCache.Meta)
    (d : D) (meta0 meta1 : WsCache.Meta) (fs : WsCache.FS)
    (hj : json_loads (json_dumps d) = some d)
    (hm : meta_loads (meta_dumps { meta0 with md5 := some (md5sum (json_dumps d)) }) =
          some { meta0 with md5 := some (md5sum (json_dumps d)) }) :
    WsCache.load md5sum json_loads meta_loads
        (WsCache.dump md5sum json_dumps meta_dumps d meta0 fs).2 meta1 =
      WsCache.LoadResult.ok d
        (WsCache.metaUpdate meta1 { meta0 with md5 := some (md5sum (json_dumps d)) }) := by
  simp [WsCache.load, WsCache.dump, WsCache.dumpAt, hm, hj, WsCache.metaUpdate]

/-- Witness for C4 at a concrete payload and concrete codecs. -/
theorem dump_then_load_roundtrip_witness :
    WsCache.load WsCache.sumDigest WsCache.natLoads WsCache.metaLoadsDemo
        (WsCache.dump WsCache.sumDigest WsCache.natDumps WsCache.metaDumpsDemo 7
          { md5 := none, timestamp := none } { dbfile := none, metafile := none }).2
        { md5 := none, timestamp := none } =
      WsCache.LoadResult.ok 7
        (WsCache.metaUpdate { md5 := none, timestamp := none }
          { md5 := some (WsCache.sumDigest (WsCache.natDumps 7)), timestamp := none }) :=
  dump_then_load_roundtrip WsCache.sumDigest WsCache.natDumps WsCache.natLoads
    WsCache.metaDumpsDemo WsCache.metaLoadsDemo 7
    { md5 := none, timestamp := none } { md5 := none, timestamp := none }
    { dbfile := none, metafile := none } (by decide) (by decide)

/-- C3 counterexample: `dump()` writes in place.  At a concrete state whose
previously persisted payload is `[3, 4]`, failing right after the payload file
was opened for writing (mode `"wb"` truncates) leaves the payload file empty:
the previously persisted payload did not remain intact. -/
theorem dump_midfailure_clobbers_payload :
    (WsCache.dumpAt WsCache.sumDigest WsCache.natDumps WsCache.metaDumpsDemo
        WsCache.DumpStep.payloadOpened 7 { md5 := none, timestamp := none }
        { dbfile := some [3, 4], metafile := some [9] }).dbfile ≠ some [3, 4] := by
  decide

/-- C3 amended: `dump()` has no atomic-replace step.  A failure before the
payload file is opened leaves both files intact; once the payload file is
opened for writing its previous content is destroyed (truncated to empty,
then replaced by the new bytes) while the old metadata file persists until it
is in turn opened and truncated — so a failure partway through `dump` can
leave a truncated or new payload alongside the old (or truncated) metadata
file instead of the state as of the last successful dump. -/
theorem dump_crash_exposure {D : Type}
    (md5sum : List Nat → List Nat) (json_dumps : D → List Nat)
    (meta_dumps : WsCache.Meta → List Nat)
    (d : D) (meta0 : WsCache.Meta) (fs : WsCache.FS) :
    WsCache.dumpAt md5sum json_dumps meta_dumps WsCache.DumpStep.beforePayloadOpen d meta0 fs = fs
    ∧ (WsCache.dumpAt md5sum json_dumps meta_dumps WsCache.DumpStep.payloadOpened d meta0 fs).metafile
        = fs.metafile
    ∧ (WsCache.dumpAt md5sum json_dumps meta_dumps WsCache.DumpStep.payloadOpened d meta0 fs).dbfile
        = some []
    ∧ (WsCache.dumpAt md5sum json_dumps meta_dumps WsCache.DumpStep.payloadWritten d meta0 fs).metafile
        = fs.metafile
    ∧ (WsCache.dumpAt md5sum json_dumps meta_dumps WsCache.DumpStep.payloadWritten d meta0 fs).dbfile
        = some (json_dumps d)
    ∧ (WsCache.dumpAt md5sum json_dumps meta_dumps WsCache.DumpStep.metaOpened d meta0 fs).metafile
        = some []
    ∧ (WsCache.dumpAt md5sum json_dumps meta_dumps WsCache.DumpStep.metaOpened d meta0 fs).dbfile
        = some (json_dumps d) := by
  refine ⟨rfl, rfl, rfl, rfl, rfl, rfl, rfl⟩

/-- C9: under the ε = 1 second tolerance of `check_protected_titles`, when
both records carry a timestamp and the absolute difference is at most one
second, the db-side (mirror) timestamp is snapped to the api-side (source)
value, so the pair subsequently compares equal on that field; when the
difference is strictly more than one second (e.g. 1.001 s = 1001000 µs) no
snapping occurs and the record — hence its timestamp — is left unchanged. -/
theorem snap_pt_entry_tolerance (d a : Int) (f g : List (String × Int)) :
    ((d - a).natAbs ≤ Grab.usecPerSec →
      Grab.snap_pt_entry { timestamp := some d, fields := f }
          { timestamp := some a, fields := g } =
        { timestamp := some a, fields := f })
    ∧ (Grab.usecPerSec < (d - a).natAbs →
      Grab.snap_pt_entry { timestamp := some d, fields := f }
          { timestamp := some a, fields := g } =
        { timestamp := some d, fields := f }) := by
  constructor
  · intro h
    simp [Grab.snap_pt_entry, h]
  · intro h
    simp [Grab.snap_pt_entry, Nat.not_le.mpr h]

/-- Witness for C9: timestamps exactly 1 s apart are snapped equal;
timestamps 1.001 s apart are left distinct. -/
theorem snap_pt_entry_tolerance_witness :
    (Grab.snap_pt_entry { timestamp := some 1000000, fields := [] }
        { timestamp := some 0, fields := [] } =
      { timestamp := some 0, fields := [] })
    ∧ (Grab.snap_pt_entry { timestamp := some 1001000, fields := [] }
        { timestamp := some 0, fields := [] } =
      { timestamp := some 1001000, fields := [] }) :=
  ⟨(snap_pt_entry_tolerance 1000000 0 [] []).1 (by decide),
   (snap_pt_entry_tolerance 1001000 0 [] []).2 (by decide)⟩

/-- Every genuinely mismatching position is collected by the comparison loop
of `_check_lists` (helper for the claims about the validator). -/
theorem mem_checkPairs_of_mismatch {R : Type} [DecidableEq R] :
    ∀ (k i : Nat) (ds as_ : List R) (d a : R),
      ds.get? i = some d → as_.get? i = some a → d ≠ a →
      (k + i) ∈ Grab.checkPairs k ds as_
  | _, i, [], _, d, _ => by simp
  | _, i, _ :: _, [], d, _ => by simp
  | k, 0, d0 :: ds, a0 :: as_, d, a => by
    intro hd ha hne
    rw [List.get?_cons_zero, Option.some_inj] at hd ha
    subst hd; subst ha
    rw [Grab.checkPairs, if_neg hne]
    simp
  | k, (i + 1), d0 :: ds, a0 :: as_, d, a => by
    intro hd ha hne
    rw [List.get?_cons_succ] at hd ha
    have hrec := mem_checkPairs_of_mismatch (k + 1) i ds as_ d a hd ha hne
    rw [Grab.checkPairs]
    rw [List.mem_append]
    right
    have harith : k + (i + 1) = (k + 1) + i := by omega
    rw [harith]
    exact hrec

/-- C5 amended: on two equal-length lists with at least one mismatching pair,
`_check_lists` still compares every pair (the per-pair `AssertionError` is
caught and recorded), reports each mismatching pair, and after the loop raises
a bare aggregate `AssertionError` chained from the last mismatch — which its
own outer `except` block catches and prints, so nothing propagates to the
caller. -/
theorem check_lists_reports_all_mismatches {R : Type} [DecidableEq R]
    (db_list api_list : List R) (i : Nat) (d a : R)
    (hlen : db_list.length = api_list.length)
    (hd : db_list.get? i = some d) (ha : api_list.get? i = some a) (hne : d ≠ a) :
    (Grab._check_lists db_list api_list).comparedIndices = List.range db_list.length
    ∧ i ∈ (Grab._check_lists db_list api_list).mismatchedIndices
    ∧ (Grab._check_lists db_list api_list).aggregateRaised = true
    ∧ (Grab._check_lists db_list api_list).escapes = false := by
  have hmem : i ∈ Grab.checkPairs 0 db_list api_list := by
    have h0 := mem_checkPairs_of_mismatch 0 i db_list api_list d a hd ha hne
    simpa using h0
  unfold Grab._check_lists
  rw [if_pos hlen]
  refine ⟨?_, hmem, ?_, rfl⟩
  · simp [List.length_zip, hlen]
  · cases h : Grab.checkPairs 0 db_list api_list with
    | nil => rw [h] at hmem; simp at hmem
    | cons x xs => simp [h]

/-- Witness for C5 (amended) at concrete lists with a mismatch at position 1. -/
theorem check_lists_reports_all_mismatches_witness :
    (Grab._check_lists [0, 1] [0, 2]).comparedIndices = List.range 2
    ∧ 1 ∈ (Grab._check_lists [0, 1] [0, 2]).mismatchedIndices
    ∧ (Grab._check_lists [0, 1] [0, 2]).aggregateRaised = true
    ∧ (Grab._check_lists [0, 1] [0, 2]).escapes = false :=
  check_lists_reports_all_mismatches [0, 1] [0, 2] 1 1 2 (by decide) (by decide)
    (by decide) (by decide)

/-- C5 counterexample: the aggregate failure does not propagate to the caller
of `_check_lists` — the function's outer `except AssertionError` prints the
traceback and returns normally, here on lists `[0]`, `[1]` whose single pair
mismatches. -/
theorem check_lists_swallows_failure :
    ¬ ((Grab._check_lists ([0] : List Nat) [1]).escapes = true) := by decide

/-- C6 amended: on lists of different lengths the initial length assertion of
`_check_lists` fails immediately (reporting both lengths), and control jumps
to the outer `except` block: no pair — in particular no pair of the
overlapping prefix — is ever compared, nothing is raised at the end, and
nothing propagates to the caller. -/
theorem check_lists_length_mismatch_behavior {R : Type} [DecidableEq R]
    (db_list api_list : List R) (h : db_list.length ≠ api_list.length) :
    Grab._check_lists db_list api_list =
      { lengthAssertFailed := true, comparedIndices := [], mismatchedIndices := [],
        aggregateRaised := false, escapes := false } := by
  simp [Grab._check_lists, h]

/-- Witness for C6 (amended) at concrete lists of lengths 1 and 2. -/
theorem check_lists_length_mismatch_behavior_witness :
    Grab._check_lists ([0] : List Nat) [0, 1] =
      { lengthAssertFailed := true, comparedIndices := [], mismatchedIndices := [],
        aggregateRaised := false, escapes := false } :=
  check_lists_length_mismatch_behavior [0] [0, 1] (by decide)

/-- C6 counterexample: on `[0]` versus `[0, 1]` the claim asserts the
overlapping prefix (position 0) is still compared; in fact the failed length
assertion aborts the function before the loop, so no position is compared. -/
theorem check_lists_skips_prefix_on_length_mismatch :
    ¬ ((Grab._check_lists ([0] : List Nat) [0, 1]).comparedIndices = [0]) := by decide

/-- After a successful execution, the row stored under any key is the last
effect the operation sequence had on that key, or the original row if the
sequence never touches it (helper for the replay claim). -/
theorem applyOps_get :
    ∀ (ops : List Grabbers.Operation) (s t : Grabbers.Store),
      Grabbers.applyOps ops s = some t →
      ∀ k, t k = (Grabbers.lastTouch ops k).getD (s k)
  | [], s, t => by
    intro h k
    rw [Grabbers.applyOps, Option.some_inj] at h
    subst h
    rfl
  | op :: rest, s, t => by
    intro h k
    rw [Grabbers.applyOps] at h
    cases hop : Grabbers.applyOp s op with
    | none => rw [hop] at h; exact absurd h (by simp)
    | some s1 =>
      rw [hop] at h
      have hstep : s1 k = (Grabbers.touches op k).getD (s k) := by
        cases op with
        | upsert e =>
          cases hp : IwEntry.iwPrefix e with
          | none => rw [Grabbers.applyOp, hp] at hop; exact absurd hop (by simp)
          | some p =>
            rw [Grabbers.applyOp, hp, Option.some_inj] at hop
            subst hop
            rw [Grabbers.touches, hp]
            by_cases hk : k = p <;> simp [hk]
        | delete p =>
          rw [Grabbers.applyOp, Option.some_inj] at hop
          subst hop
          rw [Grabbers.touches]
          by_cases hk : k = p <;> simp [hk]
      have hrec := applyOps_get rest s1 t h k
      rw [hrec, hstep, Grabbers.lastTouch]
      cases hl : Grabbers.lastTouch rest k <;> simp [hl]

/-- Whether an execution succeeds depends only on the operations, not on the
mirror state: a sequence that executed once executes from any state (helper
for the replay claim). -/
theorem applyOps_total :
    ∀ (ops : List Grabbers.Operation) (s t : Grabbers.Store),
      Grabbers.applyOps ops s = some t →
      ∀ s' : Grabbers.Store, ∃ t', Grabbers.applyOps ops s' = some t'
  | [], _, _ => by
    intro _ s'
    exact ⟨s', rfl⟩
  | op :: rest, s, t => by
    intro h s'
    rw [Grabbers.applyOps] at h
    cases hop : Grabbers.applyOp s op with
    | none => rw [hop] at h; exact absurd h (by simp)
    | some s1 =>
      rw [hop] at h
      cases op with
      | upsert e =>
        cases hp : IwEntry.iwPrefix e with
        | none => rw [Grabbers.applyOp, hp] at hop; exact absurd hop (by simp)
        | some p =>
          obtain ⟨t', ht'⟩ := applyOps_total rest s1 t h
            (fun k => if k = p then some (Grabbers.rowOfEntry e) else s' k)
          exact ⟨t', by rw [Grabbers.applyOps, Grabbers.applyOp, hp]; exact ht'⟩
      | delete p =>
        obtain ⟨t', ht'⟩ := applyOps_total rest s1 t h
          (fun k => if k = p then none else s' k)
        exact ⟨t', by rw [Grabbers.applyOps, Grabbers.applyOp]; exact ht'⟩

/-- C1: replay idempotence of the incremental CDC.  Every operation
`GrabberInterwiki.gen_update` emits is a keyed upsert (insert-or-update on the
`iw_prefix` uniqueness key) or a keyed delete, never a relative delta, so
executing the generated sequence a second time leaves the mirror table in
exactly the state the first execution produced. -/
theorem gen_update_replay_idempotent
    (events : List Grabbers.LogEvent) (ops : List Grabbers.Operation)
    (s s1 : Grabbers.Store)
    (hg : Grabbers.gen_update events = some ops)
    (h1 : Grabbers.applyOps ops s = some s1) :
    Grabbers.applyOps ops s1 = some s1 := by
  obtain ⟨s2, h2⟩ := applyOps_total ops s s1 h1 s1
  have heq : s2 = s1 := by
    funext k
    rw [applyOps_get ops s1 s2 h2 k, applyOps_get ops s s1 h1 k]
    cases hl : Grabbers.lastTouch ops k <;> simp [hl]
  rw [h2, heq]

/-- Witness for C1: the two operations derived from `demoEvents` applied to
the empty mirror give `demoStore1`; applying them again is the identity. -/
theorem gen_update_replay_idempotent_witness :
    Grabbers.applyOps Grabbers.demoOps Grabbers.demoStore1 = some Grabbers.demoStore1 :=
  gen_update_replay_idempotent Grabbers.demoEvents Grabbers.demoOps
    Grabbers.demoStore0 Grabbers.demoStore1 rfl rfl

/-- C8 counterexample: an `iw_delete` log event whose params lack the prefix
(positional key `"0"`) is not skipped — `db_entry["iw_prefix"]` raises
`KeyError`, aborting the generator, and the well-formed `iw_add` event after
it is lost: `gen_update` produces no operation sequence at all. -/
theorem gen_update_delete_without_identity_raises :
    Grabbers.gen_update
      [ { type := "interwiki", action := "iw_delete"
          params := { p0 := none, p1 := none, p2 := none, p3 := none } }
      , { type := "interwiki", action := "iw_add"
          params := { p0 := some "w", p1 := some "u", p2 := none, p3 := none } } ]
      = none := by
  rfl

/-- C8 amended: `gen_update` skips events whose type is not `"interwiki"` and
interwiki events with an unknown action kind silently (no warning is logged),
continuing with the remaining events; but an `iw_delete` event whose params
lack the prefix raises `KeyError`, which is fatal to the run. -/
theorem gen_update_malformed_events (le : Grabbers.LogEvent) (rest : List Grabbers.LogEvent) :
    (le.type ≠ "interwiki" → Grabbers.gen_update (le :: rest) = Grabbers.gen_update rest)
    ∧ (le.type = "interwiki" →
        le.action ∉ (["iw_add", "iw_edit", "iw_delete"] : List String) →
        Grabbers.gen_update (le :: rest) = Grabbers.gen_update rest)
    ∧ (le.type = "interwiki" → le.action = "iw_delete" → le.params.p0 = none →
        Grabbers.gen_update (le :: rest) = none) := by
  refine ⟨?_, ?_, ?_⟩
  · intro h
    rw [Grabbers.gen_update, if_neg h]
  · intro ht ha
    have ha1 : le.action ≠ "iw_add" := fun h => ha (by simp [h])
    have ha2 : le.action ≠ "iw_edit" := fun h => ha (by simp [h])
    have ha3 : le.action ≠ "iw_delete" := fun h => ha (by simp [h])
    rw [Grabbers.gen_update, if_pos ht, if_neg (by simp [ha1, ha2]), if_neg ha3]
  · intro ht ha hp
    rw [Grabbers.gen_update, if_pos ht,
      if_neg (by simp [ha]), if_pos ha]
    simp [Grabbers._transform_logevent_params, hp]

/-- Witness for C8 (amended) at three concrete events: a non-interwiki event,
an interwiki event with an unknown action, and an `iw_delete` without the
prefix parameter. -/
theorem gen_update_malformed_events_witness :
    Grabbers.gen_update
        [ { type := "move", action := "move"
            params := { p0 := none, p1 := none, p2 := none, p3 := none } } ]
      = Grabbers.gen_update []
    ∧ Grabbers.gen_update
        [ { type := "interwiki", action := "iw_mystery"
            params := { p0 := some "w", p1 := none, p2 := none, p3 := none } } ]
      = Grabbers.gen_update []
    ∧ Grabbers.gen_update
        [ { type := "interwiki", action := "iw_delete"
            params := { p0 := none, p1 := none, p2 := none, p3 := none } } ]
      = none :=
  ⟨(gen_update_malformed_events
      { type := "move", action := "move"
        params := { p0 := none, p1 := none, p2 := none, p3 := none } } []).1 (by decide),
   (gen_update_malformed_events
      { type := "interwiki", action := "iw_mystery"
        params := { p0 := some "w", p1 := none, p2 := none, p3 := none } } []).2.1
      (by decide) (by decide),
   (gen_update_malformed_events
      { type := "interwiki", action := "iw_delete"
        params := { p0 := none, p1 := none, p2 := none, p3 := none } } []).2.2
      (by decide) (by decide) (by decide)⟩

/-- A record found under a key is one of the dictionary's keys. -/
theorem alistGet_eq_none_iff :
    ∀ (acc : List (Grab.JValue × Grab.JObj)) (kv : Grab.JValue),
      Grab.alistGet acc kv = none ↔ kv ∉ acc.map Prod.fst
  | [], kv => by simp [Grab.alistGet]
  | (k, v) :: rest, kv => by
    by_cases hk : k = kv
    · subst hk
      simp [Grab.alistGet]
    · rw [Grab.alistGet, if_neg hk]
      rw [alistGet_eq_none_iff rest kv]
      simp [Ne.symm hk]

/-- A successful lookup means the key is present. -/
theorem alistGet_mem {acc : List (Grab.JValue × Grab.JObj)} {kv : Grab.JValue}
    {v : Grab.JObj} (h : Grab.alistGet acc kv = some v) : kv ∈ acc.map Prod.fst := by
  by_contra hmem
  rw [← alistGet_eq_none_iff] at hmem
  rw [h] at hmem
  exact Option.noConfusion hmem

/-- Overwriting an existing key leaves the key sequence unchanged. -/
theorem alistSet_map_fst :
    ∀ (acc : List (Grab.JValue × Grab.JObj)) (kv : Grab.JValue) (nv stored : Grab.JObj),
      Grab.alistGet acc kv = some stored →
      (Grab.alistSet acc kv nv).map Prod.fst = acc.map Prod.fst
  | [], kv, nv, stored => by simp [Grab.alistGet]
  | (k, v) :: rest, kv, nv, stored => by
    intro h
    by_cases hk : k = kv
    · simp [Grab.alistSet, hk]
    · rw [Grab.alistGet, if_neg hk] at h
      simp only [Grab.alistSet, if_neg hk, List.map_cons]
      rw [alistSet_map_fst rest kv nv stored h]

/-- Mapping a per-entry transformation over an in-place update: entries with
other keys are transformed as before, and the (unique) updated entry is
transformed from its new value. -/
theorem alistSet_map_spec :
    ∀ (acc : List (Grab.JValue × Grab.JObj)) (kv : Grab.JValue) (nv stored : Grab.JObj)
      (F G : Grab.JValue × Grab.JObj → Grab.JValue × Grab.JObj),
      (acc.map Prod.fst).Nodup →
      Grab.alistGet acc kv = some stored →
      (∀ p ∈ acc, p.1 ≠ kv → F p = G p) →
      F (kv, nv) = G (kv, stored) →
      (Grab.alistSet acc kv nv).map F = acc.map G
  | [], kv, nv, stored, F, G => by simp [Grab.alistGet]
  | (k, v) :: rest, kv, nv, stored, F, G => by
    intro hnd hget hne hkv
    by_cases hk : k = kv
    · subst hk
      rw [Grab.alistGet, if_pos rfl, Option.some_inj] at hget
      subst hget
      rw [Grab.alistSet, if_pos rfl]
      simp only [List.map_cons, hkv]
      refine congrArg _ (List.map_congr_left ?_)
      intro p hp
      refine hne p (List.mem_cons_of_mem _ hp) ?_
      intro hpk
      simp only [List.map_cons, List.nodup_cons] at hnd
      exact hnd.1 (hpk ▸ List.mem_map_of_mem Prod.fst hp)
    · rw [Grab.alistGet, if_neg hk] at hget
      simp only [List.map_cons, List.nodup_cons] at hnd
      rw [Grab.alistSet, if_neg hk]
      simp only [List.map_cons]
      rw [hne (k, v) (List.mem_cons_self _ _) hk,
        alistSet_map_spec rest kv nv stored F G hnd.2 hget
          (fun p hp hpk => hne p (List.mem_cons_of_mem _ hp) hpk) hkv]

/-- A record whose identity differs is transparent to `itemsWith`. -/
theorem itemsWith_cons_ne {item : Grab.JObj} {key : String} {kv0 kv : Grab.JValue}
    (rest : List Grab.JObj)
    (hit : Grab.objGet item key = some kv0) (hne : kv ≠ kv0) :
    Grab.itemsWith key kv (item :: rest) = Grab.itemsWith key kv rest := by
  rw [Grab.itemsWith, List.filter_cons]
  rw [Grab.itemsWith]
  have : (Grab.objGet item key = some kv) = False := by
    simp [hit]
    exact fun h => hne h.symm
  simp [this]

/-- A record with the matched identity is kept by `itemsWith`. -/
theorem itemsWith_cons_eq {item : Grab.JObj} {key : String} {kv0 : Grab.JValue}
    (rest : List Grab.JObj) (hit : Grab.objGet item key = some kv0) :
    Grab.itemsWith key kv0 (item :: rest) = item :: Grab.itemsWith key kv0 rest := by
  rw [Grab.itemsWith, List.filter_cons]
  simp [hit, Grab.itemsWith]

/-- `mergeGroup` ignores records with other identities. -/
theorem mergeGroup_cons_ne {item : Grab.JObj} {key : String} {kv0 kv : Grab.JValue}
    (rest : List Grab.JObj)
    (hit : Grab.objGet item key = some kv0) (hne : kv ≠ kv0) :
    Grab.mergeGroup key kv (item :: rest) = Grab.mergeGroup key kv rest := by
  rw [Grab.mergeGroup, Grab.mergeGroup, itemsWith_cons_ne rest hit hne]

/-- The identity sequence of a cons whose head carries identity `kv0`. -/
theorem keysOf_cons {item : Grab.JObj} {key : String} {kv0 : Grab.JValue}
    (rest : List Grab.JObj) (hit : Grab.objGet item key = some kv0) :
    Grab.keysOf key (item :: rest) = kv0 :: Grab.keysOf key rest := by
  rw [Grab.keysOf, List.filterMap_cons, hit]
  rfl

/-- Keeping first occurrences commutes with filtering. -/
theorem firstDedup_filter :
    ∀ (p : Grab.JValue → Bool) (l : List Grab.JValue),
      Grab.firstDedup (l.filter p) = (Grab.firstDedup l).filter p
  | p, [] => by simp [Grab.firstDedup]
  | p, a :: l => by
    rw [List.filter_cons]
    by_cases hpa : p a = true
    · rw [if_pos hpa]
      rw [Grab.firstDedup, Grab.firstDedup]
      rw [List.filter_cons, if_pos hpa]
      refine congrArg _ ?_
      rw [← firstDedup_filter p (l.filter (fun b => b ≠ a)),
        List.filter_filter, List.filter_filter]
      have hfun : (fun b => p b && decide (b ≠ a)) = (fun b => decide (b ≠ a) && p b) := by
        funext b; rw [Bool.and_comm]
      rw [hfun]
    · rw [if_neg hpa]
      rw [Grab.firstDedup]
      rw [List.filter_cons, if_neg hpa]
      rw [← firstDedup_filter p (l.filter (fun b => b ≠ a)),
        List.filter_filter]
      have hfun : (fun b => p b && decide (b ≠ a)) = p := by
        funext b
        by_cases hb : b = a
        · subst hb
          simp only [Bool.not_eq_true] at hpa
          simp [hpa]
        · simp [hb]
      rw [hfun]
termination_by _ l => l.length
decreasing_by
  · simp only [List.length_cons]
    exact Nat.lt_succ_of_le (List.length_filter_le _ _)
  · simp only [List.length_cons]
    exact Nat.lt_succ_of_le (List.length_filter_le _ _)

/-- Invariant of the squash loop: starting from an accumulator with distinct
identities, the loop returns the accumulated entries — each further merged
with the remaining records carrying its identity — followed by one entry per
new distinct identity in first-occurrence order, holding the deep field-union
of its partial records. -/
theorem squashLoop_spec :
    ∀ (l : List Grab.JObj) (key : String) (acc : List (Grab.JValue × Grab.JObj)),
      (∀ it ∈ l, (Grab.objGet it key).isSome) →
      (acc.map Prod.fst).Nodup →
      Grab.squashLoop key l acc = some
        (acc.map (fun p => (p.1, (Grab.itemsWith key p.1 l).foldl
            (fun stored item => Grab.dmergeFields item stored) p.2))
         ++ ((Grab.firstDedup (Grab.keysOf key l)).filter
              (fun kv => kv ∉ acc.map Prod.fst)).map
            (fun kv => (kv, Grab.mergeGroup key kv l)))
  | [], key, acc => by
    intro _ _
    simp [Grab.squashLoop, Grab.itemsWith, Grab.keysOf, Grab.firstDedup]
  | item :: rest, key, acc => by
    intro hall hnd
    have hhead := hall item (List.mem_cons_self _ _)
    obtain ⟨kv0, hkv0⟩ := Option.isSome_iff_exists.mp hhead
    have hrest : ∀ it ∈ rest, (Grab.objGet it key).isSome :=
      fun it hit => hall it (List.mem_cons_of_mem _ hit)
    have hmg0 : Grab.mergeGroup key kv0 (item :: rest) =
        (Grab.itemsWith key kv0 rest).foldl
          (fun stored item => Grab.dmergeFields item stored) item := by
      rw [Grab.mergeGroup, itemsWith_cons_eq rest hkv0]
    rw [Grab.squashLoop, hkv0]
    cases halist : Grab.alistGet acc kv0 with
    | none =>
      have hnotmem : kv0 ∉ acc.map Prod.fst := (alistGet_eq_none_iff acc kv0).mp halist
      have hnd' : ((acc ++ [(kv0, item)]).map Prod.fst).Nodup := by
        rw [List.map_append]
        rw [List.nodup_append]
        refine ⟨hnd, by simp, ?_⟩
        intro x hx
        simp only [List.map_cons, List.map_nil, List.mem_singleton]
        intro hx0
        exact hnotmem (hx0 ▸ hx)
      have hacc : (acc.map fun p => (p.1, (Grab.itemsWith key p.1 (item :: rest)).foldl
            (fun stored item => Grab.dmergeFields item stored) p.2))
          = acc.map fun p => (p.1, (Grab.itemsWith key p.1 rest).foldl
            (fun stored item => Grab.dmergeFields item stored) p.2) := by
        refine List.map_congr_left ?_
        intro p hp
        have hpne : p.1 ≠ kv0 := by
          intro hpk
          exact hnotmem (hpk ▸ List.mem_map_of_mem Prod.fst hp)
        rw [itemsWith_cons_ne rest hkv0 hpne]
      have hpred : (fun kv => decide (kv ∉ (acc ++ [(kv0, item)]).map Prod.fst))
          = fun kv => decide (kv ∉ acc.map Prod.fst) && decide (kv ≠ kv0) := by
        funext kv
        rw [List.map_append]
        by_cases h1 : kv = kv0
        · subst h1
          simp
        · by_cases h2 : kv ∈ acc.map Prod.fst <;> simp [h1, h2]
      have htail : ((Grab.firstDedup (Grab.keysOf key rest)).filter
              (fun kv => kv ∉ (acc ++ [(kv0, item)]).map Prod.fst)).map
              (fun kv => (kv, Grab.mergeGroup key kv rest))
          = (((Grab.firstDedup (Grab.keysOf key rest)).filter (fun b => b ≠ kv0)).filter
              (fun kv => kv ∉ acc.map Prod.fst)).map
              (fun kv => (kv, Grab.mergeGroup key kv (item :: rest))) := by
        rw [List.filter_filter]
        have hconj : (fun kv => decide (kv ∉ acc.map Prod.fst) && decide (kv ≠ kv0))
            = fun kv => decide (kv ∉ (acc ++ [(kv0, item)]).map Prod.fst) := hpred.symm
        rw [hconj]
        refine List.map_congr_left ?_
        intro kv hkv
        have hp := List.of_mem_filter hkv
        have hni : kv ∉ (acc ++ [(kv0, item)]).map Prod.fst := of_decide_eq_true hp
        have hne : kv ≠ kv0 := by
          intro h
          apply hni
          rw [List.map_append]
          subst h
          simp
        rw [mergeGroup_cons_ne rest hkv0 hne]
      simp only [halist]
      rw [squashLoop_spec rest key (acc ++ [(kv0, item)]) hrest hnd']
      refine congrArg some ?_
      conv_lhs => rw [List.map_append, htail]
      conv_rhs => rw [keysOf_cons rest hkv0, Grab.firstDedup, firstDedup_filter,
        List.filter_cons, if_pos (decide_eq_true hnotmem), List.map_cons, hmg0, hacc]
      rw [List.append_assoc]
      rfl
    | some stored =>
      have hmem : kv0 ∈ acc.map Prod.fst := alistGet_mem halist
      have hkeys : (Grab.alistSet acc kv0 (Grab.dmergeFields item stored)).map Prod.fst
          = acc.map Prod.fst := alistSet_map_fst acc kv0 _ stored halist
      have hnd' : ((Grab.alistSet acc kv0 (Grab.dmergeFields item stored)).map Prod.fst).Nodup := by
        rw [hkeys]; exact hnd
      have hacc : (Grab.alistSet acc kv0 (Grab.dmergeFields item stored)).map
            (fun p => (p.1, (Grab.itemsWith key p.1 rest).foldl
              (fun stored item => Grab.dmergeFields item stored) p.2))
          = acc.map (fun p => (p.1, (Grab.itemsWith key p.1 (item :: rest)).foldl
              (fun stored item => Grab.dmergeFields item stored) p.2)) := by
        refine alistSet_map_spec acc kv0 _ stored _ _ hnd halist ?_ ?_
        · intro p hp hpne
          rw [itemsWith_cons_ne rest hkv0 hpne]
        · rw [itemsWith_cons_eq rest hkv0]
          rw [List.foldl_cons]
      have hpred : (fun kv => decide (kv ∉ acc.map Prod.fst))
          = fun kv => decide (kv ∉ acc.map Prod.fst) && decide (kv ≠ kv0) := by
        funext kv
        by_cases h1 : kv = kv0
        · subst h1
          simp [hmem]
        · simp [h1]
      have htail : ((Grab.firstDedup (Grab.keysOf key rest)).filter
              (fun kv => kv ∉ acc.map Prod.fst)).map
              (fun kv => (kv, Grab.mergeGroup key kv rest))
          = ((Grab.firstDedup (Grab.keysOf key rest)).filter
              (fun kv => decide (kv ∉ acc.map Prod.fst) && decide (kv ≠ kv0))).map
              (fun kv => (kv, Grab.mergeGroup key kv (item :: rest))) := by
        rw [← hpred]
        refine List.map_congr_left ?_
        intro kv hkv
        have hp := List.of_mem_filter hkv
        have hni : kv ∉ acc.map Prod.fst := of_decide_eq_true hp
        have hne : kv ≠ kv0 := fun h => hni (h ▸ hmem)
        rw [mergeGroup_cons_ne rest hkv0 hne]
      simp only [halist]
      rw [squashLoop_spec rest key (Grab.alistSet acc kv0 (Grab.dmergeFields item stored))
        hrest hnd']
      refine congrArg some ?_
      conv_lhs => rw [hacc, hkeys, htail]
      conv_rhs => rw [keysOf_cons rest hkv0, Grab.firstDedup, firstDedup_filter,
        List.filter_cons, if_neg (by simpa using hmem), List.filter_filter]

/-- C7: squashing a list of partial records that all carry the identity key
produces exactly one record per distinct identity value, in first-occurrence
order, each obtained as the deep field-union (`dmerge`) of all partial
records sharing that identity, merged left to right. -/
theorem squash_deep_union (api_list : List Grab.JObj) (key : String)
    (h : ∀ it ∈ api_list, (Grab.objGet it key).isSome) :
    Grab._squash_list_of_dicts api_list key = some (Grab.squashSpec key api_list) := by
  rw [Grab._squash_list_of_dicts, squashLoop_spec api_list key [] h (by simp)]
  simp [Grab.squashSpec, List.map_map, Function.comp]

/-- Witness for C7: the partial records `{"id": 1, "a": 1}` and
`{"id": 1, "b": 2}` squash to the single record `{"id": 1, "a": 1, "b": 2}`. -/
theorem squash_deep_union_witness :
    Grab._squash_list_of_dicts
        [ [("id", Grab.JValue.int 1), ("a", Grab.JValue.int 1)]
        , [("id", Grab.JValue.int 1), ("b", Grab.JValue.int 2)] ] "id"
      = some [ [("id", Grab.JValue.int 1), ("a", Grab.JValue.int 1),
                ("b", Grab.JValue.int 2)] ] := by
  have h := squash_deep_union
      [ [("id", Grab.JValue.int 1), ("a", Grab.JValue.int 1)]
      , [("id", Grab.JValue.int 1), ("b", Grab.JValue.int 2)] ] "id" (by decide)
  rw [h]
  simp [Grab.squashSpec, Grab.keysOf, Grab.objGet, Grab.firstDedup, Grab.mergeGroup,
    Grab.itemsWith, Grab.dmergeFields, Grab.objSet]
